import Mathlib

/-!
Shallow embedding of `src/server/catchthesquares.py` (the "Catch the Falling
Squares" server): the Pygame simulation tick, the paddle/square sprites, the
shared `game_state` dictionary, the WebSocket ingest handler and the broadcast
task, together with theorems settling the frozen claims about them.

Conventions of the embedding:
* Python ints are `Int` (unbounded, as in Python).
* `random.randrange(a, b)` is modelled by `randrange a b r` where `r : Nat` is
  the random draw; it yields `a + (r % (b - a))`, i.e. an element of `[a, b-1]`.
* The shared `control_queue` is a `List (Option String)`: the ingest handler
  appends `data.get('direction')`, which is `None` (here `none`) when the key
  is absent.
* `game_state['squares']` holds plain Python dicts (line 269 of the source);
  the broadcast code nevertheless accesses the attribute `rect` on its
  elements.  To model that attribute access honestly, the element type
  `SquareObj` can be either a sprite (which has a `rect`) or a dict (which has
  not); attribute lookup returns an `Option`.
* One iteration of the `while running` loop in `game()` is `tick`; its
  per-frame inputs (pending pygame events, pressed keys) are a `TickInput`.
-/

namespace CatchTheSquares

/-- `SCREEN_WIDTH = 800` (line 10). -/
def SCREEN_WIDTH : Int := 800

/-- `SCREEN_HEIGHT = 600` (line 11). -/
def SCREEN_HEIGHT : Int := 600

/-- `PADDLE_WIDTH = 100` (line 12). -/
def PADDLE_WIDTH : Int := 100

/-- `PADDLE_HEIGHT = 20` (line 13). -/
def PADDLE_HEIGHT : Int := 20

/-- `SQUARE_SIZE = 30` (line 14). -/
def SQUARE_SIZE : Int := 30

/-- `FALL_SPEED = 3` (line 15). -/
def FALL_SPEED : Int := 3

/-- `INITIAL_LIVES = 3` (line 16). -/
def INITIAL_LIVES : Int := 3

/-- `self.speed = 8` of the paddle (line 54). -/
def PADDLE_SPEED : Int := 8

/-- A pygame `Rect`: position of the top-left corner plus width and height. -/
structure Rect where
  x : Int
  y : Int
  w : Int
  h : Int
deriving DecidableEq

/-- pygame `Rect.colliderect`: bounding boxes overlap (strict inequalities,
as in pygame's `_pg_do_rects_intersect`). -/
def colliderect (a b : Rect) : Bool :=
  a.x < b.x + b.w && a.y < b.y + b.h && a.x + a.w > b.x && a.y + a.h > b.y

/-- The paddle's rect: width `PADDLE_WIDTH`, height `PADDLE_HEIGHT`, bottom at
`SCREEN_HEIGHT - 10` (lines 49-53); only `x` varies. -/
def paddleRect (x : Int) : Rect :=
  { x := x, y := SCREEN_HEIGHT - 10 - PADDLE_HEIGHT, w := PADDLE_WIDTH, h := PADDLE_HEIGHT }

/-- A `FallingSquare` sprite: its rect's top-left corner and its id
(lines 91-102). -/
structure Square where
  x : Int
  y : Int
  id : String
deriving DecidableEq

/-- The rect of a falling square: `SQUARE_SIZE × SQUARE_SIZE` at `(x, y)`. -/
def squareRect (s : Square) : Rect :=
  { x := s.x, y := s.y, w := SQUARE_SIZE, h := SQUARE_SIZE }

/-- `FallingSquare.update` (lines 104-106): `self.rect.y += self.speed`. -/
def Square.update (s : Square) : Square :=
  { s with y := s.y + FALL_SPEED }

/-- `random.randrange(a, b)` for `a < b`: a uniformly chosen integer in
`[a, b-1]`; `r` is the random draw.  The stop value `b` is excluded. -/
def randrange (a b : Int) (r : Nat) : Int :=
  a + ((r % (b - a).toNat : Nat) : Int)

/-- `FallingSquare.__init__` (lines 93-102):
`rect.x = random.randrange(0, SCREEN_WIDTH - SQUARE_SIZE)`,
`rect.y = random.randrange(-100, -SQUARE_SIZE)`, `id = square_id`. -/
def FallingSquare.init (square_id : String) (r1 r2 : Nat) : Square :=
  { x := randrange 0 (SCREEN_WIDTH - SQUARE_SIZE) r1
    y := randrange (-100) (-SQUARE_SIZE) r2
    id := square_id }

/-- An element of `game_state['squares']`.  The simulation stores plain dicts
`{'x': …, 'y': …, 'id': …}` (line 269), but the broadcast code treats the
elements as sprites carrying a `rect` attribute (line 157); the type therefore
admits both shapes so the attribute access can be modelled. -/
inductive SquareObj where
  | sprite (rect : Rect) (id : String)
  | dict (x : Int) (y : Int) (id : String)
deriving DecidableEq

/-- Python attribute access `sq.rect`: present on a sprite, raises
`AttributeError` (here `none`) on a plain dict. -/
def SquareObj.rectAttr : SquareObj → Option Rect
  | .sprite r _ => some r
  | .dict _ _ _ => none

/-- Whether a `game_state['squares']` element is a plain dict. -/
def SquareObj.isDict : SquareObj → Bool
  | .sprite _ _ => false
  | .dict _ _ _ => true

/-- The shared `game_state` dictionary (lines 30-36). -/
structure GameState where
  paddle_x : Int
  squares : List SquareObj
  score : Int
  lives : Int
  game_over : Bool
deriving DecidableEq

/-- One queued control, as pushed by the ingest handler:
`data.get('direction')`, possibly `None`. -/
abbrev Control := Option String

/-- The body of the `while control_queue` loop in `Paddle.update`
(lines 74-79): one popped control applied to the paddle's x. -/
def paddleApplyControl (x : Int) (control : Control) : Int :=
  if control = some "left" then x - PADDLE_SPEED
  else if control = some "right" then x + PADDLE_SPEED
  else x

/-- `Paddle.update` (lines 60-89): keyboard input, then drain the whole
control queue applying each control in FIFO order, then clamp ONCE to the
screen (`rect.left < 0` / `rect.right > SCREEN_WIDTH`), then publish
`game_state['paddle_x']`.  Returns the published x. -/
def Paddle.update (keysLeft keysRight : Bool) (queue : List Control) (x : Int) : Int :=
  let x1 := if keysLeft then x - PADDLE_SPEED else x
  let x2 := if keysRight then x1 + PADDLE_SPEED else x1
  let x3 := queue.foldl paddleApplyControl x2
  let x4 := if x3 < 0 then 0 else x3
  if x4 + PADDLE_WIDTH > SCREEN_WIDTH then SCREEN_WIDTH - PADDLE_WIDTH else x4

/-- The two sequential boundary checks of `Paddle.update` (lines 82-85),
as a standalone clamp to `[0, SCREEN_WIDTH - PADDLE_WIDTH]`. -/
def clampPaddleX (x : Int) : Int :=
  let x4 := if x < 0 then 0 else x
  if x4 + PADDLE_WIDTH > SCREEN_WIDTH then SCREEN_WIDTH - PADDLE_WIDTH else x4

/-- Modelled from the spec's words (§4.3 step 1), for comparison with the
code: apply each command sequentially, "clamping after every individual
application". -/
def paddleUpdateClampEachSpec (queue : List Control) (x : Int) : Int :=
  queue.foldl (fun y c => clampPaddleX (paddleApplyControl y c)) x

/-- The whole mutable world of the main thread: the paddle sprite's x, the
`falling_squares_pygame_group` in insertion (spawn) order, the
`square_id_counter`, the shared `control_queue`, the shared `game_state`, and
the `running` flag of the main loop. -/
structure World where
  paddleX : Int
  squares : List Square
  counter : Nat
  queue : List Control
  gs : GameState
  running : Bool
deriving DecidableEq

/-- A pygame event relevant to the main loop: `QUIT` or the `SPAWN_SQUARE`
timer event (carrying the two random draws of the square it would spawn). -/
inductive GEvent where
  | quit
  | spawnSquare (r1 r2 : Nat)
deriving DecidableEq

/-- The event loop body (lines 235-243): `QUIT` clears `running`;
`SPAWN_SQUARE and not game_state['game_over']` increments the id counter and
adds `FallingSquare(f"sq_{square_id_counter}")` to the sprite groups. -/
def processEvent (w : World) : GEvent → World
  | .quit => { w with running := false }
  | .spawnSquare r1 r2 =>
      if w.gs.game_over then w
      else
        { w with
          counter := w.counter + 1
          squares := w.squares ++ [FallingSquare.init ("sq_" ++ toString (w.counter + 1)) r1 r2] }

/-- One step of the miss loop (lines 258-263): a square whose `rect.top`
passed `SCREEN_HEIGHT` costs a life, and `game_over` is set the moment
`lives <= 0`; the pair is `(lives, game_over)`. -/
def missStep (p : Int × Bool) (s : Square) : Int × Bool :=
  if s.y > SCREEN_HEIGHT then
    (p.1 - 1, if p.1 - 1 ≤ 0 then true else p.2)
  else p

/-- The whole miss loop over the (already catch-filtered) square group, in
group order. -/
def missLoop (squares : List Square) (lives : Int) (go : Bool) : Int × Bool :=
  squares.foldl missStep (lives, go)

/-- The paddle x published by `all_sprites.update()` this tick:
`Paddle.update` on the current queue and sprite position. -/
def paddleAfterUpd (kl kr : Bool) (w : World) : Int :=
  Paddle.update kl kr w.queue w.paddleX

/-- The square group after `all_sprites.update()` moved every square down by
`FALL_SPEED`. -/
def movedSquares (w : World) : List Square :=
  w.squares.map Square.update

/-- The list returned by `pygame.sprite.spritecollide(paddle, group, True)`
(line 252): the moved squares whose rect overlaps the updated paddle's rect. -/
def caughtOf (kl kr : Bool) (w : World) : List Square :=
  (movedSquares w).filter fun s => colliderect (paddleRect (paddleAfterUpd kl kr w)) (squareRect s)

/-- The group remaining after `spritecollide(…, True)` killed the caught
squares: the moved squares NOT overlapping the paddle. -/
def uncaughtOf (kl kr : Bool) (w : World) : List Square :=
  (movedSquares w).filter fun s => !(colliderect (paddleRect (paddleAfterUpd kl kr w)) (squareRect s))

/-- `missed_squares_to_remove` (lines 257-261): the uncaught squares whose
top passed the bottom of the screen. -/
def missedOf (kl kr : Bool) (w : World) : List Square :=
  (uncaughtOf kl kr w).filter fun s => s.y > SCREEN_HEIGHT

/-- The squares surviving the tick: uncaught and still on screen
(line 264-265 kills the missed ones). -/
def survivorsOf (kl kr : Bool) (w : World) : List Square :=
  (uncaughtOf kl kr w).filter fun s => !(s.y > SCREEN_HEIGHT)

/-- The `if not game_state['game_over']:` block (lines 247-272): sprite
updates, catch resolution with score increments, the miss loop over the
remaining group, killing missed squares, republishing
`game_state['squares']` as a list of dicts, and the final
`if lives <= 0: game_over = True`.  The queue is left empty: `Paddle.update`
drained it. -/
def physicsStep (kl kr : Bool) (w : World) : World :=
  let px := paddleAfterUpd kl kr w
  let lg := missLoop (uncaughtOf kl kr w) w.gs.lives w.gs.game_over
  { w with
    paddleX := px
    queue := []
    squares := survivorsOf kl kr w
    gs :=
      { paddle_x := px
        squares := (survivorsOf kl kr w).map fun s => SquareObj.dict s.x s.y s.id
        score := w.gs.score + ((caughtOf kl kr w).length : Int)
        lives := lg.1
        game_over := if lg.1 ≤ 0 then true else lg.2 } }

/-- The restart branch (lines 294-307): reset score, lives, `game_over`,
clear the published squares, empty the sprite groups and recreate the paddle
at the horizontal center (`Paddle.__init__` republishes `paddle_x`).  The id
counter and the control queue are NOT touched. -/
def restart (w : World) : World :=
  { w with
    squares := []
    paddleX := SCREEN_WIDTH / 2 - PADDLE_WIDTH / 2
    gs :=
      { paddle_x := SCREEN_WIDTH / 2 - PADDLE_WIDTH / 2
        squares := []
        score := 0
        lives := INITIAL_LIVES
        game_over := false } }

/-- The per-frame inputs of one main-loop iteration: the pending pygame
events and the pressed keys sampled by `pygame.key.get_pressed()`. -/
structure TickInput where
  events : List GEvent
  keysLeft : Bool
  keysRight : Bool
  keyR : Bool
  keyQ : Bool
deriving DecidableEq

/-- The world after this frame's event loop ran. -/
def preWorld (inp : TickInput) (w : World) : World :=
  inp.events.foldl processEvent w

/-- One full iteration of the `while running` loop of `game()`
(lines 234-313): event loop, then (when not game over) the physics block,
then the game-over screen where `R` restarts and `Q` quits.  Drawing is pure
output and is omitted. -/
def tick (inp : TickInput) (w : World) : World :=
  let w1 := preWorld inp w
  let w2 := if w1.gs.game_over then w1 else physicsStep inp.keysLeft inp.keysRight w1
  if w2.gs.game_over then
    if inp.keyR then restart w2
    else if inp.keyQ then { w2 with running := false }
    else w2
  else w2

/-- A sequence of main-loop iterations. -/
def ticks (inps : List TickInput) (w : World) : World :=
  inps.foldl (fun w i => tick i w) w

/-- The missed squares of one full tick (used to characterise the lives
delta). -/
def tickMissed (inp : TickInput) (w : World) : List Square :=
  missedOf inp.keysLeft inp.keysRight (preWorld inp w)

/-- The caught squares of one full tick. -/
def tickCaught (inp : TickInput) (w : World) : List Square :=
  caughtOf inp.keysLeft inp.keysRight (preWorld inp w)

/-- The initial world (lines 30-36 and `Paddle.__init__`): paddle centered,
no squares, score 0, `INITIAL_LIVES` lives, not game over, empty queue. -/
def initWorld : World :=
  { paddleX := SCREEN_WIDTH / 2 - PADDLE_WIDTH / 2
    squares := []
    counter := 0
    queue := []
    gs :=
      { paddle_x := SCREEN_WIDTH / 2 - PADDLE_WIDTH / 2
        squares := []
        score := 0
        lives := INITIAL_LIVES
        game_over := false }
    running := true }

/-- One entry of the per-client list built by the broadcast
(`{'x': sq.rect.x, 'y': sq.rect.y, 'id': sq.id}`, line 157). -/
structure ClientSquare where
  x : Int
  y : Int
  id : String
deriving DecidableEq

/-- The broadcast message `current_state_for_client` (lines 158-164). -/
structure BroadcastMsg where
  paddle_x : Int
  squares : List ClientSquare
  score : Int
  lives : Int
  game_over : Bool
deriving DecidableEq

/-- Attribute access `sq.id`: present on both shapes of `SquareObj`. -/
def SquareObj.idAttr : SquareObj → String
  | .sprite _ i => i
  | .dict _ _ i => i

/-- Encoding of one element of `game_state['squares']` by the broadcast
comprehension (line 157): it reads `sq.rect.x` and `sq.rect.y`, so a plain
dict element (which has no `rect` attribute) raises `AttributeError`,
modelled as `none`. -/
def encodeSquareForClient (sq : SquareObj) : Option ClientSquare :=
  match sq.rectAttr with
  | some r => some { x := r.x, y := r.y, id := sq.idAttr }
  | none => none

/-- The list comprehension of line 157: encodes the elements left to right,
aborting with the exception (`none`) as soon as one element raises. -/
def encodeSquares : List SquareObj → Option (List ClientSquare)
  | [] => some []
  | sq :: rest =>
      match encodeSquareForClient sq, encodeSquares rest with
      | some c, some cs => some (c :: cs)
      | _, _ => none

/-- The snapshot-and-encode part of one cycle of
`send_game_state_to_clients` (lines 153-165): build `client_squares` and
`current_state_for_client` under the lock, then `json.dumps`.  Result is
`none` when the comprehension raised. -/
def send_game_state_snapshot (gs : GameState) : Option BroadcastMsg :=
  (encodeSquares gs.squares).map fun cs =>
    { paddle_x := gs.paddle_x
      squares := cs
      score := gs.score
      lives := gs.lives
      game_over := gs.game_over }

/-- One full cycle of the broadcast loop body (lines 153-169): nothing is
sent when no client is connected; otherwise the snapshot is encoded once and
the same message is sent to every connected client (`asyncio.gather`).
`none` means the cycle raised before any send. -/
def send_game_state_to_clients (gs : GameState) (clients : List String) :
    Option (List (String × BroadcastMsg)) :=
  if clients.isEmpty then some []
  else (send_game_state_snapshot gs).map fun m => clients.map fun c => (c, m)

/-- One inbound WebSocket message as seen by the handler: either
`json.loads` succeeds and yields a dict with optional `type` and `direction`
entries, or decoding raises. -/
inductive InMsg where
  | ok (ty : Option String) (dir : Option String)
  | bad
deriving DecidableEq

/-- The `async for message in websocket` loop body (lines 128-134), running
inside the handler's single `try`: a decoded `control` message appends its
direction to the shared queue; any decode failure raises OUT of the loop
(there is no per-message handler), ending the iteration.  Returns the final
queue, the number of messages read from the connection, and whether the
stream was exhausted normally (`true`) or the loop was aborted by the
exception (`false`). -/
def handlerLoop : List InMsg → List Control → Nat → List Control × Nat × Bool
  | [], q, n => (q, n, true)
  | .ok ty dir :: rest, q, n =>
      if ty = some "control" then handlerLoop rest (q ++ [dir]) (n + 1)
      else handlerLoop rest q (n + 1)
  | .bad :: _, q, n => (q, n + 1, false)

/-- The observable outcome of `websocket_handler` for one connection. -/
structure HandlerResult where
  queue : List Control
  processed : Nat
  endOfStream : Bool
  registered : Bool
deriving DecidableEq

/-- `websocket_handler` (lines 123-144) applied to the connection's whole
message sequence: register, run the receive loop in a `try` whose `except`
clauses merely log, and `finally` unregister — so whatever happens, after the
loop stops the client is no longer registered and no further message of this
connection is read. -/
def websocket_handler (msgs : List InMsg) (q : List Control) : HandlerResult :=
  let r := handlerLoop msgs q 0
  { queue := r.1, processed := r.2.1, endOfStream := r.2.2, registered := false }

/-- A frame with no pending events and no pressed keys. -/
def noInput : TickInput :=
  { events := [], keysLeft := false, keysRight := false, keyR := false, keyQ := false }

/-- A frame whose only pressed key is `R`. -/
def inputR : TickInput :=
  { events := [], keysLeft := false, keysRight := false, keyR := true, keyQ := false }

/-- A plainly reachable playing state: one life left, two uncaught squares
(x = 500, far from the paddle at 350) about to cross the bottom edge in the
same tick (y = 599 and 600; after falling 3 both tops exceed 600). -/
def C1cexWorld : World :=
  { paddleX := 350
    squares := [⟨500, 599, "sq_1"⟩, ⟨500, 600, "sq_2"⟩]
    counter := 2
    queue := []
    gs :=
      { paddle_x := 350, squares := [.dict 500 599 "sq_1", .dict 500 600 "sq_2"]
        score := 0, lives := 1, game_over := false }
    running := true }

/-- A playing state with one life left and two squares (x = 600) whose tops
cross the bottom edge in the same tick. -/
def C6cexWorld : World :=
  { paddleX := 350
    squares := [⟨600, 598, "sq_4"⟩, ⟨600, 600, "sq_5"⟩]
    counter := 5
    queue := []
    gs :=
      { paddle_x := 350, squares := [.dict 600 598 "sq_4", .dict 600 600 "sq_5"]
        score := 0, lives := 1, game_over := false }
    running := true }

/-- A game-over state in which one `left` command has just been received
from a client (appended to the still-undrained control queue). -/
def C4cexWorld : World :=
  { paddleX := 350
    squares := []
    counter := 3
    queue := [some "left"]
    gs :=
      { paddle_x := 350, squares := [], score := 0, lives := 0, game_over := true }
    running := true }

/-- A game-over state with a buffered `right` command. -/
def C4witWorld : World :=
  { paddleX := 200
    squares := []
    counter := 7
    queue := [some "right"]
    gs :=
      { paddle_x := 200, squares := [], score := 2, lives := 0, game_over := true }
    running := true }

/-- A playing state with one live square far from the paddle and high above
the bottom, so the next tick keeps it alive. -/
def C2witWorld : World :=
  { paddleX := 350
    squares := [⟨500, 100, "sq_1"⟩]
    counter := 1
    queue := []
    gs :=
      { paddle_x := 350, squares := [.dict 500 100 "sq_1"], score := 0, lives := 3
        game_over := false }
    running := true }

/-- A playing state with one square (x = 400, y = 560) directly above the
paddle (x = 350, covering 350-450): after falling 3 its rect overlaps the
paddle's rect. -/
def C7witWorld : World :=
  { paddleX := 350
    squares := [⟨400, 560, "sq_1"⟩]
    counter := 1
    queue := []
    gs :=
      { paddle_x := 350, squares := [.dict 400 560 "sq_1"], score := 0, lives := 3
        game_over := false }
    running := true }

/-- A game-over state still holding the squares published by its final
tick. -/
def C10witWorld : World :=
  { paddleX := 100
    squares := [⟨1, 2, "sq_9"⟩]
    counter := 9
    queue := []
    gs :=
      { paddle_x := 100, squares := [.dict 1 2 "sq_9"], score := 4, lives := 0
        game_over := true }
    running := true }

end CatchTheSquares

namespace CatchTheSquares

/-- The event loop never touches the shared `game_state`. -/
theorem processEvents_gs : ∀ (es : List GEvent) (w : World),
    (es.foldl processEvent w).gs = w.gs
  | [], _ => rfl
  | e :: es, w => by
      rw [List.foldl_cons, processEvents_gs es]
      cases e with
      | quit => rfl
      | spawnSquare r1 r2 =>
          simp only [processEvent]
          split <;> rfl

/-- The event loop never touches the control queue. -/
theorem processEvents_queue : ∀ (es : List GEvent) (w : World),
    (es.foldl processEvent w).queue = w.queue
  | [], _ => rfl
  | e :: es, w => by
      rw [List.foldl_cons, processEvents_queue es]
      cases e with
      | quit => rfl
      | spawnSquare r1 r2 =>
          simp only [processEvent]
          split <;> rfl

/-- The event loop never touches the paddle sprite. -/
theorem processEvents_paddleX : ∀ (es : List GEvent) (w : World),
    (es.foldl processEvent w).paddleX = w.paddleX
  | [], _ => rfl
  | e :: es, w => by
      rw [List.foldl_cons, processEvents_paddleX es]
      cases e with
      | quit => rfl
      | spawnSquare r1 r2 =>
          simp only [processEvent]
          split <;> rfl

/-- While `game_over` is set, the `SPAWN_SQUARE` guard suppresses every
spawn, so the event loop leaves the square group untouched. -/
theorem processEvents_squares_of_game_over : ∀ (es : List GEvent) (w : World),
    w.gs.game_over = true → (es.foldl processEvent w).squares = w.squares
  | [], _, _ => rfl
  | e :: es, w, h => by
      rw [List.foldl_cons]
      cases e with
      | quit =>
          exact processEvents_squares_of_game_over es { w with running := false } h
      | spawnSquare r1 r2 =>
          have he : processEvent w (GEvent.spawnSquare r1 r2) = w := by
            simp only [processEvent, h, if_true]
          rw [he]
          exact processEvents_squares_of_game_over es w h

/-- The miss loop decrements `lives` once per square past the bottom edge,
with no regard to `game_over`. -/
theorem missLoop_lives : ∀ (l : List Square) (lives : Int) (go : Bool),
    (missLoop l lives go).1 =
      lives - (((l.filter fun s => s.y > SCREEN_HEIGHT).length : Nat) : Int)
  | [], lives, go => by simp [missLoop]
  | s :: l, lives, go => by
      by_cases h : s.y > SCREEN_HEIGHT
      · have ih := missLoop_lives l (lives - 1) (if lives - 1 ≤ 0 then true else go)
        simp only [missLoop, List.foldl_cons, missStep] at ih ⊢
        rw [if_pos h, ih]
        simp [List.filter_cons, h]
        omega
      · have ih := missLoop_lives l lives go
        simp only [missLoop, List.foldl_cons, missStep] at ih ⊢
        rw [if_neg h, ih]
        simp [List.filter_cons, h]

/-- The miss loop never clears an already-set `game_over`. -/
theorem missLoop_go_mono : ∀ (l : List Square) (lives : Int),
    (missLoop l lives true).2 = true
  | [], _ => rfl
  | s :: l, lives => by
      by_cases h : s.y > SCREEN_HEIGHT
      · simp only [missLoop, List.foldl_cons, missStep, h, if_pos]
        split
        · exact missLoop_go_mono l _
        · exact missLoop_go_mono l _
      · simp only [missLoop, List.foldl_cons, missStep, h, if_neg]
        exact missLoop_go_mono l _

/-- If the miss loop raised the `game_over` flag, either it was already set
or the final lives count is nonpositive. -/
theorem missLoop_go_le : ∀ (l : List Square) (lives : Int) (go : Bool),
    (missLoop l lives go).2 = true → go = true ∨ (missLoop l lives go).1 ≤ 0
  | [], _, _, h => Or.inl h
  | s :: l, lives, go, h => by
      by_cases hy : s.y > SCREEN_HEIGHT
      · simp only [missLoop, List.foldl_cons, missStep, hy, if_pos] at h ⊢
        by_cases hl : lives - 1 ≤ 0
        · right
          have := missLoop_lives l (lives - 1) (if lives - 1 ≤ 0 then true else go)
          simp only [missLoop] at this
          omega
        · simp only [hl, if_neg, if_false] at h ⊢
          rcases missLoop_go_le l (lives - 1) go h with hgo | hle
          · exact Or.inl hgo
          · exact Or.inr hle
      · simp only [missLoop, List.foldl_cons, missStep, hy, if_neg] at h ⊢
        exact missLoop_go_le l lives go h

/-- The `game_over` published at the end of the physics block (the in-loop
flag plus the final `if lives <= 0` recheck) is the old flag OR-ed with the
final lives test. -/
theorem missLoop_game_over (l : List Square) (lives : Int) (go : Bool) :
    (if (missLoop l lives go).1 ≤ 0 then true else (missLoop l lives go).2) =
      (go || decide ((missLoop l lives go).1 ≤ 0)) := by
  by_cases hf : (missLoop l lives go).1 ≤ 0
  · simp [hf]
  · simp only [hf, if_neg, if_false, decide_eq_false hf, Bool.or_false]
    cases hgo : go with
    | true => subst hgo; exact missLoop_go_mono l lives
    | false =>
        subst hgo
        cases h2 : (missLoop l lives false).2 with
        | false => rfl
        | true =>
            rcases missLoop_go_le l lives false h2 with h | h
            · exact h.symm
            · exact absurd h hf

end CatchTheSquares

namespace CatchTheSquares

/-- Lives published by the physics block: the old count minus one per missed
square. -/
theorem physicsStep_lives (kl kr : Bool) (w : World) :
    (physicsStep kl kr w).gs.lives = w.gs.lives - (((missedOf kl kr w).length : Nat) : Int) :=
  missLoop_lives (uncaughtOf kl kr w) w.gs.lives w.gs.game_over

/-- `game_over` published by the physics block: the old flag OR-ed with the
final `lives <= 0` test. -/
theorem physicsStep_game_over (kl kr : Bool) (w : World) :
    (physicsStep kl kr w).gs.game_over =
      (w.gs.game_over || decide ((physicsStep kl kr w).gs.lives ≤ 0)) :=
  missLoop_game_over (uncaughtOf kl kr w) w.gs.lives w.gs.game_over

/-- Paddle x published by the physics block. -/
theorem physicsStep_paddle_x (kl kr : Bool) (w : World) :
    (physicsStep kl kr w).gs.paddle_x = paddleAfterUpd kl kr w := rfl

/-- Score published by the physics block. -/
theorem physicsStep_score (kl kr : Bool) (w : World) :
    (physicsStep kl kr w).gs.score = w.gs.score + (((caughtOf kl kr w).length : Nat) : Int) := rfl

/-- Sprite group left by the physics block. -/
theorem physicsStep_squares (kl kr : Bool) (w : World) :
    (physicsStep kl kr w).squares = survivorsOf kl kr w := rfl

/-- Squares published by the physics block: one plain dict per survivor. -/
theorem physicsStep_gs_squares (kl kr : Bool) (w : World) :
    (physicsStep kl kr w).gs.squares =
      (survivorsOf kl kr w).map fun s => SquareObj.dict s.x s.y s.id := rfl

/-- The physics block drains the control queue (`Paddle.update` pops every
element). -/
theorem physicsStep_queue (kl kr : Bool) (w : World) :
    (physicsStep kl kr w).queue = [] := rfl

/-- A tick taken while `game_over` is set, with `R` not pressed: the shared
state, the sprite group and the control queue are all left untouched. -/
theorem tick_of_game_over (inp : TickInput) (w : World)
    (h : w.gs.game_over = true) (hR : inp.keyR = false) :
    (tick inp w).gs = w.gs ∧ (tick inp w).squares = w.squares ∧
      (tick inp w).queue = w.queue := by
  have h1 : (preWorld inp w).gs = w.gs := processEvents_gs _ _
  have h2 : (preWorld inp w).squares = w.squares :=
    processEvents_squares_of_game_over _ _ h
  have h3 : (preWorld inp w).queue = w.queue := processEvents_queue _ _
  simp only [tick, h1, h, if_true, hR, Bool.false_eq_true, if_false]
  split <;> first
    | exact ⟨rfl, h2, h3⟩
    | exact ⟨h1, h2, h3⟩

/-- A tick taken while `game_over` is set, with `R` pressed: the restart
branch resets the shared state and the sprite group but keeps the control
queue and the id counter. -/
theorem tick_of_restart (inp : TickInput) (w : World)
    (h : w.gs.game_over = true) (hR : inp.keyR = true) :
    (tick inp w).gs =
        { paddle_x := SCREEN_WIDTH / 2 - PADDLE_WIDTH / 2, squares := []
          score := 0, lives := INITIAL_LIVES, game_over := false } ∧
      (tick inp w).squares = [] ∧ (tick inp w).queue = w.queue ∧
      (tick inp w).paddleX = SCREEN_WIDTH / 2 - PADDLE_WIDTH / 2 ∧
      (tick inp w).counter = w.counter := by
  have h1 : (preWorld inp w).gs = w.gs := processEvents_gs _ _
  have h3 : (preWorld inp w).queue = w.queue := processEvents_queue _ _
  have h4 : ∀ es (v : World), (List.foldl processEvent v es).counter = v.counter ∨
      v.gs.game_over = false := by
    intro es v
    by_cases hg : v.gs.game_over = true
    · left
      induction es generalizing v with
      | nil => rfl
      | cons e es ih =>
          rw [List.foldl_cons]
          cases e with
          | quit => exact ih { v with running := false } hg
          | spawnSquare r1 r2 =>
              have he : processEvent v (GEvent.spawnSquare r1 r2) = v := by
                simp only [processEvent, hg, if_true]
              rw [he]
              exact ih v hg
    · right; exact Bool.not_eq_true _ |>.mp hg
  have h5 : (preWorld inp w).counter = w.counter := by
    rcases h4 inp.events w with hc | hc
    · exact hc
    · rw [h] at hc; cases hc
  simp only [tick, h1, h, if_true, hR]
  exact ⟨rfl, rfl, h3, rfl, h5⟩

/-- While the game is running (not game over) and `R` is not pressed, the
tick's published state is exactly the physics block's output on the
post-event world. -/
theorem tick_of_playing (inp : TickInput) (w : World)
    (h : w.gs.game_over = false) (hR : inp.keyR = false) :
    tick inp w =
      (fun w2 => if w2.gs.game_over then
          (if inp.keyQ then { w2 with running := false } else w2) else w2)
        (physicsStep inp.keysLeft inp.keysRight (preWorld inp w)) := by
  have h1 : (preWorld inp w).gs = w.gs := processEvents_gs _ _
  simp only [tick, h1, h, Bool.false_eq_true, if_false, hR]

end CatchTheSquares

namespace CatchTheSquares

/-- The two sequential boundary checks always land the paddle inside
`[0, SCREEN_WIDTH - PADDLE_WIDTH]`. -/
theorem clampPaddleX_bounds (x : Int) :
    0 ≤ clampPaddleX x ∧ clampPaddleX x ≤ SCREEN_WIDTH - PADDLE_WIDTH := by
  unfold clampPaddleX SCREEN_WIDTH PADDLE_WIDTH
  dsimp only
  split <;> split <;> omega

/-- `Paddle.update` is the unclamped sequential application followed by the
single final clamp. -/
theorem Paddle.update_eq_clamp (kl kr : Bool) (q : List Control) (x : Int) :
    Paddle.update kl kr q x =
      clampPaddleX (q.foldl paddleApplyControl
        ((if kr then (if kl then x - PADDLE_SPEED else x) + PADDLE_SPEED
          else (if kl then x - PADDLE_SPEED else x)))) := rfl

/-- Whatever the keys, the queue and the starting position, the published
paddle x lies in `[0, SCREEN_WIDTH - PADDLE_WIDTH]`. -/
theorem Paddle.update_bounds (kl kr : Bool) (q : List Control) (x : Int) :
    0 ≤ Paddle.update kl kr q x ∧
      Paddle.update kl kr q x ≤ SCREEN_WIDTH - PADDLE_WIDTH := by
  rw [Paddle.update_eq_clamp]
  exact clampPaddleX_bounds _

/-- Draining the queue without clamping adds `PADDLE_SPEED` per `right`
command and subtracts it per `left` command. -/
theorem foldl_paddleApplyControl : ∀ (q : List Control) (x : Int),
    q.foldl paddleApplyControl x =
      x + PADDLE_SPEED * (((q.count (some "right") : Nat) : Int) -
        ((q.count (some "left") : Nat) : Int))
  | [], x => by simp
  | c :: q, x => by
      rw [List.foldl_cons, foldl_paddleApplyControl q]
      by_cases h1 : c = some "left"
      · subst h1
        simp [paddleApplyControl, List.count_cons, PADDLE_SPEED]
        try omega
      · by_cases h2 : c = some "right"
        · subst h2
          simp [paddleApplyControl, List.count_cons, PADDLE_SPEED]
          try omega
        · have e1 : ((some "right" : Control) == c) = false :=
            beq_eq_false_iff_ne.mpr fun hh => h2 hh.symm
          have e2 : ((some "left" : Control) == c) = false :=
            beq_eq_false_iff_ne.mpr fun hh => h1 hh.symm
          simp [paddleApplyControl, h1, h2, List.count_cons, e1, e2]

/-- The broadcast encoding raises on the first plain-dict element, so it
raises on any non-empty all-dict list. -/
theorem encodeSquares_eq_none (l : List SquareObj)
    (hne : l ≠ []) (hd : ∀ sq ∈ l, sq.isDict = true) :
    encodeSquares l = none := by
  cases l with
  | nil => exact absurd rfl hne
  | cons a t =>
      have ha : a.isDict = true := hd a (List.mem_cons_self a t)
      cases a with
      | sprite r i => simp [SquareObj.isDict] at ha
      | dict x y i =>
          simp only [encodeSquares, encodeSquareForClient, SquareObj.rectAttr]

/-- All squares ever published into `game_state['squares']` by a tick are
plain dicts (the physics block republishes dicts, the restart branch clears
the list, and game-over ticks leave it alone). -/
theorem tick_squares_isDict (inp : TickInput) (w : World)
    (hd : ∀ sq ∈ w.gs.squares, sq.isDict = true) :
    ∀ sq ∈ (tick inp w).gs.squares, sq.isDict = true := by
  have h1 : (preWorld inp w).gs = w.gs := processEvents_gs _ _
  have hphys : ∀ sq ∈ (physicsStep inp.keysLeft inp.keysRight (preWorld inp w)).gs.squares,
      sq.isDict = true := by
    intro sq hsq
    rw [physicsStep_gs_squares] at hsq
    rcases List.mem_map.mp hsq with ⟨s, _, rfl⟩
    rfl
  by_cases hg : w.gs.game_over = true
  · by_cases hR : inp.keyR = true
    · rw [(tick_of_restart inp w hg hR).1]
      intro sq hsq
      simp at hsq
    · simp only [Bool.not_eq_true] at hR
      rw [(tick_of_game_over inp w hg hR).1]
      exact hd
  · simp only [Bool.not_eq_true] at hg
    simp only [tick, h1, hg, Bool.false_eq_true, if_false]
    split
    · split
      · simp [restart]
      · split
        · intro sq hsq; exact hphys sq (by simpa using hsq)
        · exact hphys
    · exact hphys

/-- The receive loop on a prefix of well-formed messages followed by one
malformed message: the prefix is processed, the malformed message aborts the
loop, and nothing after it is ever read. -/
theorem handlerLoop_bad : ∀ (pre suf : List InMsg) (q : List Control) (n : Nat),
    (∀ m ∈ pre, m ≠ InMsg.bad) →
    handlerLoop (pre ++ InMsg.bad :: suf) q n =
      ((handlerLoop pre q n).1, n + pre.length + 1, false)
  | [], suf, q, n, _ => rfl
  | m :: pre, suf, q, n, hpre => by
      have hm : m ≠ InMsg.bad := hpre m (List.mem_cons_self m pre)
      cases m with
      | bad => exact absurd rfl hm
      | ok ty dir =>
          have hrest : ∀ x ∈ pre, x ≠ InMsg.bad := fun x hx =>
            hpre x (List.mem_cons_of_mem _ hx)
          by_cases hty : ty = some "control"
          · subst hty
            have step : handlerLoop ((InMsg.ok (some "control") dir :: pre) ++ InMsg.bad :: suf) q n =
                handlerLoop (pre ++ InMsg.bad :: suf) (q ++ [dir]) (n + 1) := by
              simp [handlerLoop]
            have step2 : handlerLoop (InMsg.ok (some "control") dir :: pre) q n =
                handlerLoop pre (q ++ [dir]) (n + 1) := by
              simp [handlerLoop]
            rw [step, step2, handlerLoop_bad pre suf (q ++ [dir]) (n + 1) hrest]
            have hm : (n + 1) + pre.length + 1 =
                n + (InMsg.ok (some "control") dir :: pre).length + 1 := by
              simp only [List.length_cons]
              omega
            rw [hm]
          · have step : handlerLoop ((InMsg.ok ty dir :: pre) ++ InMsg.bad :: suf) q n =
                handlerLoop (pre ++ InMsg.bad :: suf) q (n + 1) := by
              simp [handlerLoop, hty]
            have step2 : handlerLoop (InMsg.ok ty dir :: pre) q n =
                handlerLoop pre q (n + 1) := by
              simp [handlerLoop, hty]
            rw [step, step2, handlerLoop_bad pre suf q (n + 1) hrest]
            have hm : (n + 1) + pre.length + 1 =
                n + (InMsg.ok ty dir :: pre).length + 1 := by
              simp only [List.length_cons]
              omega
            rw [hm]

end CatchTheSquares

namespace CatchTheSquares

/-- The event loop leaves the shared state unchanged (wrapper for
`preWorld`). -/
theorem preWorld_gs (inp : TickInput) (w : World) : (preWorld inp w).gs = w.gs :=
  processEvents_gs _ _

/-- The game-over/drawing section of the loop (no `R` pressed, so no
restart) never changes the shared state. -/
theorem postBranch_gs (inp : TickInput) (v : World) :
    (if v.gs.game_over = true then
        (if inp.keyQ = true then { v with running := false } else v)
      else v).gs = v.gs := by
  split
  · split <;> rfl
  · rfl

/-- The game-over/drawing section (no `R` pressed) never changes the sprite
group. -/
theorem postBranch_squares (inp : TickInput) (v : World) :
    (if v.gs.game_over = true then
        (if inp.keyQ = true then { v with running := false } else v)
      else v).squares = v.squares := by
  split
  · split <;> rfl
  · rfl

/-- A playing tick with `R` not pressed publishes exactly the physics
block's shared state. -/
theorem tick_playing_noR_gs (inp : TickInput) (w : World)
    (hg : w.gs.game_over = false) (hR : inp.keyR = false) :
    (tick inp w).gs = (physicsStep inp.keysLeft inp.keysRight (preWorld inp w)).gs := by
  rw [tick_of_playing inp w hg hR]
  exact postBranch_gs inp _

/-- A playing tick with `R` not pressed leaves exactly the physics block's
surviving squares in the sprite group. -/
theorem tick_playing_noR_squares (inp : TickInput) (w : World)
    (hg : w.gs.game_over = false) (hR : inp.keyR = false) :
    (tick inp w).squares = survivorsOf inp.keysLeft inp.keysRight (preWorld inp w) := by
  rw [tick_of_playing inp w hg hR]
  exact postBranch_squares inp _

/-- On a playing tick the published state is either the physics block's
output, or (when the tick itself ended the game and `R` was pressed) the
restart state. -/
theorem tick_gs_cases (inp : TickInput) (w : World) (hg : w.gs.game_over = false) :
    (tick inp w).gs = (physicsStep inp.keysLeft inp.keysRight (preWorld inp w)).gs ∨
      (tick inp w).gs =
        { paddle_x := SCREEN_WIDTH / 2 - PADDLE_WIDTH / 2, squares := []
          score := 0, lives := INITIAL_LIVES, game_over := false } := by
  simp only [tick, preWorld_gs, hg, Bool.false_eq_true, if_false]
  split
  · split
    · right; rfl
    · split
      · left; rfl
      · left; rfl
  · left; rfl

/-- C1 (counterexample): from a plainly reachable playing state with one
life left and two uncaught squares whose tops cross the bottom edge in the
same tick, the miss loop decrements `lives` for BOTH squares: `lives` ends
the tick at `-1`, below the claimed floor of 0. -/
theorem C1_lives_negative_cex :
    (tick noInput C1cexWorld).gs.lives = -1 ∧
      ¬(0 ≤ (tick noInput C1cexWorld).gs.lives) := by decide

/-- C1 (amended): after any tick `lives` never exceeds `INITIAL_LIVES`, and
on a playing tick without restart `lives` drops by exactly one per uncaught
square past the bottom edge.  `game_over` is set as soon as `lives` reaches
0, but the miss loop keeps decrementing for the remaining missed squares of
the same tick, so there is no floor at 0. -/
theorem C1_lives_upper_and_miss_delta (inp : TickInput) (w : World)
    (h : w.gs.lives ≤ INITIAL_LIVES) :
    (tick inp w).gs.lives ≤ INITIAL_LIVES ∧
      (w.gs.game_over = false → inp.keyR = false →
        (tick inp w).gs.lives =
          w.gs.lives - (((tickMissed inp w).length : Nat) : Int)) := by
  constructor
  · by_cases hg : w.gs.game_over = true
    · by_cases hR : inp.keyR = true
      · rw [(tick_of_restart inp w hg hR).1]
      · simp only [Bool.not_eq_true] at hR
        rw [(tick_of_game_over inp w hg hR).1]
        exact h
    · simp only [Bool.not_eq_true] at hg
      rcases tick_gs_cases inp w hg with hc | hc
      · rw [hc, physicsStep_lives, preWorld_gs]
        omega
      · rw [hc]
  · intro hgo hR
    rw [tick_playing_noR_gs inp w hgo hR, physicsStep_lives, preWorld_gs]
    rfl

/-- C1 (witness): the amended theorem applied to the initial world and an
empty frame. -/
theorem C1_witness :
    (tick noInput initWorld).gs.lives ≤ INITIAL_LIVES ∧
      (tick noInput initWorld).gs.lives =
        initWorld.gs.lives - (((tickMissed noInput initWorld).length : Nat) : Int) := by
  have h := C1_lives_upper_and_miss_delta noInput initWorld (by decide)
  exact ⟨h.1, h.2 rfl rfl⟩

/-- C6 (counterexample): two simultaneous misses at one life: the tick ends
with `game_over = true` while `lives = -1 ≠ 0`, so "game_over iff lives = 0"
fails (the code's test is `lives <= 0`). -/
theorem C6_negative_lives_cex :
    (tick noInput C6cexWorld).gs.game_over = true ∧
      (tick noInput C6cexWorld).gs.lives ≠ 0 := by decide

/-- C6 (amended): after every tick, `game_over = true` iff `lives ≤ 0`
(the restart branch restores `lives = INITIAL_LIVES` and clears the flag,
re-establishing the invariant). -/
theorem C6_game_over_iff_lives_nonpos (inp : TickInput) (w : World)
    (h : w.gs.game_over = decide (w.gs.lives ≤ 0)) :
    (tick inp w).gs.game_over = decide ((tick inp w).gs.lives ≤ 0) := by
  by_cases hg : w.gs.game_over = true
  · by_cases hR : inp.keyR = true
    · rw [(tick_of_restart inp w hg hR).1]
      decide
    · simp only [Bool.not_eq_true] at hR
      rw [(tick_of_game_over inp w hg hR).1]
      exact h
  · simp only [Bool.not_eq_true] at hg
    rcases tick_gs_cases inp w hg with hc | hc
    · rw [hc, physicsStep_game_over, preWorld_gs, hg]
      simp
    · rw [hc]
      decide

/-- C6 (witness): the invariant holds of the initial world and is preserved
by its first tick. -/
theorem C6_witness :
    (tick noInput initWorld).gs.game_over =
      decide ((tick noInput initWorld).gs.lives ≤ 0) :=
  C6_game_over_iff_lives_nonpos noInput initWorld (by decide)

/-- C8: whatever the pressed keys and however many queued movement commands
a tick drains, the published `paddle_x` stays in
`[0, SCREEN_WIDTH - PADDLE_WIDTH]` (game-over ticks republish the old
in-range value, restart recenters). -/
theorem C8_paddle_x_in_range (inp : TickInput) (w : World)
    (h : 0 ≤ w.gs.paddle_x ∧ w.gs.paddle_x ≤ SCREEN_WIDTH - PADDLE_WIDTH) :
    0 ≤ (tick inp w).gs.paddle_x ∧
      (tick inp w).gs.paddle_x ≤ SCREEN_WIDTH - PADDLE_WIDTH := by
  by_cases hg : w.gs.game_over = true
  · by_cases hR : inp.keyR = true
    · rw [(tick_of_restart inp w hg hR).1]
      exact ⟨by decide, by decide⟩
    · simp only [Bool.not_eq_true] at hR
      rw [(tick_of_game_over inp w hg hR).1]
      exact h
  · simp only [Bool.not_eq_true] at hg
    rcases tick_gs_cases inp w hg with hc | hc
    · rw [hc, physicsStep_paddle_x]
      exact Paddle.update_bounds _ _ _ _
    · rw [hc]
      exact ⟨by decide, by decide⟩

/-- C8 (witness): the bound applied to the initial world (paddle centered at
350) and an empty frame. -/
theorem C8_witness :
    0 ≤ (tick noInput initWorld).gs.paddle_x ∧
      (tick noInput initWorld).gs.paddle_x ≤ SCREEN_WIDTH - PADDLE_WIDTH :=
  C8_paddle_x_in_range noInput initWorld ⟨by decide, by decide⟩

/-- C5 (counterexample): from `paddle_x = 0`, the batch `[left, right]`
yields 0 under the code's single final clamp, but 8 under the claimed
per-command clamping, so the two disagree observably. -/
theorem C5_intermediate_clamp_cex :
    Paddle.update false false [some "left", some "right"] 0 = 0 ∧
      paddleUpdateClampEachSpec [some "left", some "right"] 0 = 8 ∧
      (0 : Int) ≠ 8 := by decide

/-- C5 (amended): within one tick's batch the commands are applied
sequentially with NO intermediate clamping; a single clamp to
`[0, SCREEN_WIDTH - PADDLE_WIDTH]` happens once after the whole batch, so
the published position is the clamp of the raw net displacement. -/
theorem C5_single_clamp_after_batch (q : List Control) (x : Int) :
    Paddle.update false false q x =
      clampPaddleX (x + PADDLE_SPEED * (((q.count (some "right") : Nat) : Int) -
        ((q.count (some "left") : Nat) : Int))) := by
  rw [Paddle.update_eq_clamp]
  simp only [Bool.false_eq_true, if_false]
  rw [foldl_paddleApplyControl]

/-- random.randrange(a, b) always lands in `[a, b-1]`. -/
theorem randrange_mem (a b : Int) (r : Nat) (h : 0 < (b - a).toNat) :
    a ≤ randrange a b r ∧ randrange a b r ≤ b - 1 := by
  unfold randrange
  have hm : r % (b - a).toNat < (b - a).toNat := Nat.mod_lt _ h
  omega

/-- Every value of `[a, b-1]` is a possible outcome of
random.randrange(a, b). -/
theorem randrange_surj (a b v : Int) (ha : a ≤ v) (hv : v ≤ b - 1) :
    ∃ r : Nat, randrange a b r = v := by
  refine ⟨(v - a).toNat, ?_⟩
  unfold randrange
  have h1 : (v - a).toNat < (b - a).toNat := by omega
  rw [Nat.mod_eq_of_lt h1]
  omega

/-- C9 (counterexample): `random.randrange(0, SCREEN_WIDTH - SQUARE_SIZE)`
excludes its stop value, so no random draw can ever place a spawned square
at `x = SCREEN_WIDTH - SQUARE_SIZE`, contradicting the claimed inclusive
range. -/
theorem C9_max_x_impossible_cex :
    ¬ ∃ (square_id : String) (r1 r2 : Nat),
        (FallingSquare.init square_id r1 r2).x = SCREEN_WIDTH - SQUARE_SIZE := by
  rintro ⟨square_id, r1, r2, h⟩
  have hx := randrange_mem 0 (SCREEN_WIDTH - SQUARE_SIZE) r1 (by decide)
  have hc : (SCREEN_WIDTH : Int) - SQUARE_SIZE = 770 := by decide
  have hxe : (FallingSquare.init square_id r1 r2).x =
      randrange 0 (SCREEN_WIDTH - SQUARE_SIZE) r1 := rfl
  rw [hxe] at h
  omega

/-- C9 (amended): every spawned square has `x` uniform over the INCLUSIVE
range `[0, SCREEN_WIDTH - SQUARE_SIZE - 1]` (each such value is attainable,
the claimed endpoint `SCREEN_WIDTH - SQUARE_SIZE` is not), `y` in
`[-100, -SQUARE_SIZE - 1]`, strictly above the visible area, and the id the
spawn site passed in (`"sq_" ++ counter`, fresh by the strictly increasing
counter). -/
theorem C9_spawn_ranges (square_id : String) (r1 r2 : Nat) :
    0 ≤ (FallingSquare.init square_id r1 r2).x ∧
      (FallingSquare.init square_id r1 r2).x ≤ SCREEN_WIDTH - SQUARE_SIZE - 1 ∧
      (∀ v : Int, 0 ≤ v → v ≤ SCREEN_WIDTH - SQUARE_SIZE - 1 →
        ∃ r : Nat, (FallingSquare.init square_id r r2).x = v) ∧
      -100 ≤ (FallingSquare.init square_id r1 r2).y ∧
      (FallingSquare.init square_id r1 r2).y ≤ -SQUARE_SIZE - 1 ∧
      (FallingSquare.init square_id r1 r2).y < 0 ∧
      (FallingSquare.init square_id r1 r2).id = square_id := by
  have hx := randrange_mem 0 (SCREEN_WIDTH - SQUARE_SIZE) r1 (by decide)
  have hy := randrange_mem (-100) (-SQUARE_SIZE) r2 (by decide)
  have h30 : (SQUARE_SIZE : Int) = 30 := rfl
  have hxe : (FallingSquare.init square_id r1 r2).x =
      randrange 0 (SCREEN_WIDTH - SQUARE_SIZE) r1 := rfl
  have hye : (FallingSquare.init square_id r1 r2).y =
      randrange (-100) (-SQUARE_SIZE) r2 := rfl
  refine ⟨?_, ?_, ?_, ?_, ?_, ?_, rfl⟩
  · rw [hxe]; exact hx.1
  · rw [hxe]; exact hx.2
  · intro v h0 h1
    exact randrange_surj 0 (SCREEN_WIDTH - SQUARE_SIZE) v h0 h1
  · rw [hye]; exact hy.1
  · rw [hye]; exact hy.2
  · rw [hye]
    have := hy.2
    omega

/-- C9 (witness): the amended theorem applied at concrete draws, with the
attainability instantiated at the true maximum 769. -/
theorem C9_witness :
    0 ≤ (FallingSquare.init "sq_1" 900 7).x ∧
      (FallingSquare.init "sq_1" 900 7).x ≤ SCREEN_WIDTH - SQUARE_SIZE - 1 ∧
      (∃ r : Nat, (FallingSquare.init "sq_1" r 7).x = 769) ∧
      (FallingSquare.init "sq_1" 900 7).y < 0 := by
  have h := C9_spawn_ranges "sq_1" 900 7
  exact ⟨h.1, h.2.1, h.2.2.1 769 (by decide) (by decide), h.2.2.2.2.2.1⟩

end CatchTheSquares

namespace CatchTheSquares

/-- C2 (code bug): `game_state['squares']` only ever holds plain dicts (any
state published by a tick keeps that shape), yet the broadcast snapshot
reads `sq.rect.x` on each element; thus on every reachable state whose
squares list is non-empty the broadcast cycle raises `AttributeError`
instead of encoding and delivering the message. -/
theorem C2_broadcast_raises_on_squares (inp : TickInput) (w : World)
    (hd : ∀ sq ∈ w.gs.squares, sq.isDict = true)
    (hne : (tick inp w).gs.squares ≠ []) :
    send_game_state_snapshot (tick inp w).gs = none := by
  have hd2 := tick_squares_isDict inp w hd
  unfold send_game_state_snapshot
  rw [encodeSquares_eq_none _ hne hd2]
  rfl

/-- C2 (witness): one tick after a state with one live square, the
published squares list is non-empty and the broadcast snapshot raises. -/
theorem C2_witness :
    (tick noInput C2witWorld).gs.squares ≠ [] ∧
      send_game_state_snapshot (tick noInput C2witWorld).gs = none :=
  ⟨by decide, C2_broadcast_raises_on_squares noInput C2witWorld (by decide) (by decide)⟩

/-- C3 (counterexample): a malformed first message aborts the receive loop:
the following well-formed `control` message is never read and its command
never queued (whereas on its own it would enqueue `left`), and the client
ends unregistered — the connection is dropped by one bad message. -/
theorem C3_single_bad_message_cex :
    websocket_handler [InMsg.bad, InMsg.ok (some "control") (some "left")] [] =
        { queue := [], processed := 1, endOfStream := false, registered := false } ∧
      websocket_handler [InMsg.ok (some "control") (some "left")] [] =
        { queue := [some "left"], processed := 1, endOfStream := true
          registered := false } := by decide

/-- C3 (amended): `json.loads` runs inside the handler's single outer
`try`, so the first message that fails to decode raises out of the
`async for` loop: the messages before it are processed normally, the bad
message and everything after it are discarded, and the `finally` clause
unregisters the client — the connection is dropped, not resumed. -/
theorem C3_connection_dropped_on_bad_message (pre suf : List InMsg)
    (q : List Control) (hpre : ∀ m ∈ pre, m ≠ InMsg.bad) :
    websocket_handler (pre ++ InMsg.bad :: suf) q =
      { queue := (websocket_handler pre q).queue
        processed := pre.length + 1
        endOfStream := false
        registered := false } := by
  unfold websocket_handler
  rw [handlerLoop_bad pre suf q 0 hpre]
  dsimp only
  rw [Nat.zero_add]

/-- C3 (witness): the amended theorem applied to a two-good-one-bad
stream. -/
theorem C3_witness :
    websocket_handler [InMsg.ok (some "control") (some "right"), InMsg.bad,
        InMsg.ok (some "control") (some "left")] [] =
      { queue := (websocket_handler [InMsg.ok (some "control") (some "right")] []).queue
        processed := 2, endOfStream := false, registered := false } :=
  C3_connection_dropped_on_bad_message
    [InMsg.ok (some "control") (some "right")]
    [InMsg.ok (some "control") (some "left")] [] (by decide)

/-- C4 (counterexample): a `left` command received during game over is NOT
discarded: the game-over tick leaves it queued and `paddle_x` unchanged at
350; after an `R` restart recenters the paddle to 350, the next tick drains
the stale command and publishes 342 — the buffered command IS applied after
restart, contradicting "it is never applied later". -/
theorem C4_buffered_command_applied_cex :
    (tick noInput C4cexWorld).gs.paddle_x = 350 ∧
      (tick noInput C4cexWorld).queue = [some "left"] ∧
      (tick inputR (tick noInput C4cexWorld)).gs.paddle_x = 350 ∧
      (tick noInput (tick inputR (tick noInput C4cexWorld))).gs.paddle_x = 342 ∧
      ((342 : Int) ≠ 350) := by decide

/-- C4 (amended): game-over ticks do not drain the command queue: movement
commands received during game over are buffered (leaving `paddle_x`
unchanged while game over lasts), survive a Restart untouched, and are
applied by `Paddle.update` on the first playing tick after the restart. -/
theorem C4_commands_buffered_not_discarded (inp : TickInput) (w : World)
    (h : w.gs.game_over = true) :
    (tick inp w).queue = w.queue ∧
      (inp.keyR = false →
        (tick inp w).gs.paddle_x = w.gs.paddle_x ∧
          (tick inp w).gs.game_over = true) ∧
      (inp.keyR = true →
        (tick inp w).gs.paddle_x = SCREEN_WIDTH / 2 - PADDLE_WIDTH / 2 ∧
          (tick inp w).gs.game_over = false ∧
          ∀ inp2 : TickInput, inp2.events = [] →
            (tick inp2 (tick inp w)).gs.paddle_x =
              Paddle.update inp2.keysLeft inp2.keysRight w.queue
                (SCREEN_WIDTH / 2 - PADDLE_WIDTH / 2)) := by
  refine ⟨?_, ?_, ?_⟩
  · by_cases hR : inp.keyR = true
    · exact (tick_of_restart inp w h hR).2.2.1
    · simp only [Bool.not_eq_true] at hR
      exact (tick_of_game_over inp w h hR).2.2
  · intro hR
    have hgs := (tick_of_game_over inp w h hR).1
    rw [hgs]
    exact ⟨rfl, h⟩
  · intro hR
    have ht := tick_of_restart inp w h hR
    refine ⟨by rw [ht.1], by rw [ht.1], ?_⟩
    intro inp2 he
    obtain ⟨hgs, hsq, hq, hpx, -⟩ := ht
    generalize hW : tick inp w = w' at hgs hsq hq hpx ⊢
    have hpre : preWorld inp2 w' = w' := by
      unfold preWorld
      rw [he]
      rfl
    have hgo1 : w'.gs.game_over = false := by rw [hgs]
    have hu : uncaughtOf inp2.keysLeft inp2.keysRight w' = [] := by
      unfold uncaughtOf movedSquares
      rw [hsq]
      rfl
    have hm : missedOf inp2.keysLeft inp2.keysRight w' = [] := by
      unfold missedOf
      rw [hu]
      rfl
    have hlives : (physicsStep inp2.keysLeft inp2.keysRight w').gs.lives =
        INITIAL_LIVES := by
      rw [physicsStep_lives, hm, hgs]
      simp
    have hgo2 : (physicsStep inp2.keysLeft inp2.keysRight w').gs.game_over =
        false := by
      rw [physicsStep_game_over, hgo1, hlives]
      decide
    simp only [tick, hpre, hgo1, Bool.false_eq_true, if_false, hgo2]
    rw [physicsStep_paddle_x]
    unfold paddleAfterUpd
    rw [hq, hpx]

/-- C4 (witness): the amended theorem at a concrete game-over world with a
buffered `right` command, restart pressed. -/
theorem C4_witness :
    (tick inputR C4witWorld).queue = C4witWorld.queue ∧
      (tick inputR C4witWorld).gs.paddle_x = SCREEN_WIDTH / 2 - PADDLE_WIDTH / 2 ∧
      (tick inputR C4witWorld).gs.game_over = false := by
  have h := C4_commands_buffered_not_discarded inputR C4witWorld (by decide)
  have h3 := h.2.2 (by decide)
  exact ⟨h.1, h3.1, h3.2.1⟩

/-- C7: any square overlapping the updated paddle this tick is caught by
`spritecollide` BEFORE the miss loop runs: it is removed from the group,
the score delta counts every caught square (so at least this one), and the
lives delta counts only uncaught squares — the caught square never costs a
life, even in a tick where it might also lie past the bottom edge. -/
theorem C7_catch_priority (inp : TickInput) (w : World) (s : Square)
    (hgo : w.gs.game_over = false) (hR : inp.keyR = false)
    (hs : s ∈ tickCaught inp w) :
    s ∉ (tick inp w).squares ∧
      (tick inp w).gs.score =
        w.gs.score + (((tickCaught inp w).length : Nat) : Int) ∧
      1 ≤ (tickCaught inp w).length ∧
      (tick inp w).gs.lives =
        w.gs.lives - (((tickMissed inp w).length : Nat) : Int) ∧
      s ∉ tickMissed inp w := by
  have hs' : s ∈ (movedSquares (preWorld inp w)).filter
      (fun t => colliderect (paddleRect (paddleAfterUpd inp.keysLeft inp.keysRight
        (preWorld inp w))) (squareRect t)) := hs
  have hcol : colliderect (paddleRect (paddleAfterUpd inp.keysLeft inp.keysRight
      (preWorld inp w))) (squareRect s) = true := (List.mem_filter.mp hs').2
  refine ⟨?_, ?_, ?_, ?_, ?_⟩
  · rw [tick_playing_noR_squares inp w hgo hR]
    intro hmem
    have hmem' : s ∈ (movedSquares (preWorld inp w)).filter
        (fun t => !(colliderect (paddleRect (paddleAfterUpd inp.keysLeft inp.keysRight
          (preWorld inp w))) (squareRect t))) := (List.mem_filter.mp hmem).1
    have hnc := (List.mem_filter.mp hmem').2
    rw [hcol] at hnc
    simp at hnc
  · rw [tick_playing_noR_gs inp w hgo hR, physicsStep_score, preWorld_gs]
    rfl
  · exact List.length_pos.mpr (List.ne_nil_of_mem hs)
  · rw [tick_playing_noR_gs inp w hgo hR, physicsStep_lives, preWorld_gs]
    rfl
  · intro hmem
    have hmem' : s ∈ (movedSquares (preWorld inp w)).filter
        (fun t => !(colliderect (paddleRect (paddleAfterUpd inp.keysLeft inp.keysRight
          (preWorld inp w))) (squareRect t))) := (List.mem_filter.mp hmem).1
    have hnc := (List.mem_filter.mp hmem').2
    rw [hcol] at hnc
    simp at hnc

/-- C7 (witness): the square at (400, 560) falls to (400, 563), overlaps
the paddle at 350, and the claim theorem applies: caught, scored once, no
life lost. -/
theorem C7_witness :
    (⟨400, 563, "sq_1"⟩ : Square) ∉ (tick noInput C7witWorld).squares ∧
      (tick noInput C7witWorld).gs.score =
        C7witWorld.gs.score + (((tickCaught noInput C7witWorld).length : Nat) : Int) ∧
      1 ≤ (tickCaught noInput C7witWorld).length ∧
      (tick noInput C7witWorld).gs.lives =
        C7witWorld.gs.lives - (((tickMissed noInput C7witWorld).length : Nat) : Int) ∧
      (⟨400, 563, "sq_1"⟩ : Square) ∉ tickMissed noInput C7witWorld :=
  C7_catch_priority noInput C7witWorld ⟨400, 563, "sq_1"⟩ (by decide) (by decide) (by decide)

/-- C10: while `game_over` holds and `R` is never pressed, every tick leaves
the published squares list and the sprite group exactly as the game-ending
tick left them (no movement, spawning or removal), and the list is cleared
precisely by the Restart branch. -/
theorem C10_squares_frozen_during_game_over (w : World) (inps : List TickInput)
    (hgo : w.gs.game_over = true) (hR : ∀ inp ∈ inps, inp.keyR = false) :
    (ticks inps w).gs.squares = w.gs.squares ∧
      (ticks inps w).squares = w.squares ∧
      (ticks inps w).gs.game_over = true ∧
      (∀ inp2 : TickInput, inp2.keyR = true →
        (tick inp2 (ticks inps w)).gs.squares = []) := by
  induction inps generalizing w with
  | nil =>
      refine ⟨rfl, rfl, hgo, ?_⟩
      intro inp2 h2
      show (tick inp2 w).gs.squares = []
      rw [(tick_of_restart inp2 w hgo h2).1]
  | cons inp inps ih =>
      have hRi : inp.keyR = false := hR inp (List.mem_cons_self inp inps)
      have hRs : ∀ i ∈ inps, i.keyR = false := fun i hi =>
        hR i (List.mem_cons_of_mem _ hi)
      have ht := tick_of_game_over inp w hgo hRi
      have hgo1 : (tick inp w).gs.game_over = true := by
        rw [ht.1]
        exact hgo
      have hticks : ticks (inp :: inps) w = ticks inps (tick inp w) := rfl
      rw [hticks]
      rcases ih (tick inp w) hgo1 hRs with ⟨a, b, c, d⟩
      refine ⟨?_, ?_, c, d⟩
      · rw [a, ht.1]
      · rw [b, ht.2.1]

/-- C10 (witness): two game-over ticks freeze the published squares of a
concrete world; a subsequent `R` tick clears them. -/
theorem C10_witness :
    (ticks [noInput, noInput] C10witWorld).gs.squares = C10witWorld.gs.squares ∧
      (ticks [noInput, noInput] C10witWorld).gs.game_over = true ∧
      (tick inputR (ticks [noInput, noInput] C10witWorld)).gs.squares = [] := by
  have h := C10_squares_frozen_during_game_over C10witWorld [noInput, noInput]
    (by decide) (by decide)
  exact ⟨h.1, h.2.2.1, h.2.2.2 inputR (by decide)⟩

end CatchTheSquares
